import Mathlib

/-!
Verification of the simdjson `dom::document_stream` batching / streaming /
pipelining controller (src/include/simdjson/inline/document_stream.h).

Shallow embedding notes.

* The controller's external collaborators (the parser's `stage1`,
  `stage2_next`, `ensure_capacity`, the structural index storage) are not part
  of the source unit; they are modelled as opaque oracles carried by an
  environment `Env`, so every theorem below quantifies over arbitrary oracle
  behaviour unless a hypothesis says otherwise.
* `stage1` is modelled as a pure function of the batch offset, the requested
  length and the partial flag: the byte buffer `buf` is fixed for the lifetime
  of the stream, so a call `p.implementation->stage1(&buf[start], l, partial)`
  is determined by `(start, l, partial)`.  Running it replaces the parser's
  implementation state (structural index array, index count, and the list of
  documents stage 2 will subsequently produce from that index).
* `stage2_next(parser.doc)` pops the next pending document result from the
  current implementation state and stores its root into `parser.doc`; when the
  index is exhausted it reports `EMPTY` and leaves the parser unchanged
  (spec section 6: "returns the empty sentinel when the batch's index is
  exhausted").
* The `stage1_worker` background thread is sequentialised: `worker.run`
  records the job descriptor (the captured `_next_batch_start`); the job's
  effect (`stage1_thread_error = run_stage1(*stage1ThreadParser, _nbs)`)
  is applied when `worker.finish()` is awaited, which is exactly the
  happens-before point after which the controller may read the result.
  `jobs_submitted` is a ghost counter of `worker.run` submissions.
* `size_t` arithmetic: all quantities are `Nat`.  In `run_stage1` the C++
  computes `size_t remaining = len - _batch_start`; every call site of
  `run_stage1` has `_batch_start ≤ len` (offset 0, or an offset checked
  `< len` immediately before the call / before job submission), and in that
  range unsigned subtraction coincides with truncated `Nat` subtraction.
* The two preprocessor configurations of the source are both embedded:
  names suffixed `T` follow the `SIMDJSON_THREADS_ENABLED` build, names
  suffixed `NT` follow the single-parser synchronous build.
-/

namespace Simdjson

/-- simdjson `error_code` values that occur in the document-stream controller.
`SUCCESS` is 0 in C++; the other constructors are the nonzero codes the
controller can see (capacity/allocation failures, content failures from either
phase, the batch-exhausted sentinel `EMPTY`, and the worker-result placeholder
`UNINITIALIZED`). -/
inductive ErrorCode where
  | SUCCESS
  | CAPACITY
  | MEMALLOC
  | TAPE_ERROR
  | STRING_ERROR
  | UTF8_ERROR
  | EMPTY
  | UNINITIALIZED
  deriving DecidableEq, Repr

/-- C++ truthiness of an `error_code` (`if (error)`): any value other than
`SUCCESS` (= 0) tests true. -/
def ErrorCode.isError : ErrorCode → Bool
  | .SUCCESS => false
  | _ => true

/-- Modelled from the spec: the parser-implementation state an invocation of
phase 1 (structural indexing) produces, as observed by the controller.
`structural_indexes` / `n_structural_indexes` are the index array and the
index-entry count (`parser.implementation->structural_indexes[...]`,
`parser.implementation->n_structural_indexes`); the array is modelled as a
total function since the controller reads the slot one past the entry count.
`queue` is the sequence of results that successive `stage2_next` calls will
produce from this index (phase 2 consumes the index one document at a time). -/
structure Impl where
  structural_indexes : Nat → Nat
  n_structural_indexes : Nat
  queue : List (ErrorCode × Nat)

/-- A `dom::parser` as seen by the controller: its implementation state and
the document slot `parser.doc` (whose root is what dereference returns;
document roots are abstracted as `Nat`). -/
structure Parser where
  impl : Impl
  doc : Nat

/-- The fixed data of one stream plus the external-collaborator oracles:
`len` and `batch_size` are the constructor arguments; `stage1 start l partial`
models `implementation->stage1(&buf[start], l, partial)` (a pure function of
the offset because `buf` is fixed and never mutated); `ensure_capacity n`
models `parser.ensure_capacity(n)` (allocation outcome modelled as a
deterministic function of the requested capacity). -/
structure Env where
  len : Nat
  batch_size : Nat
  stage1 : Nat → Nat → Bool → ErrorCode × Impl
  ensure_capacity : Nat → ErrorCode

/-- The mutable state of a `dom::document_stream`: the primary parser, the
batch-start cursor, the sticky error, and (threads build) the secondary parser
`stage1ThreadParser`, the worker-result field `stage1_thread_error`, the
outstanding worker-job descriptor (the captured `_next_batch_start`, `none`
when no job is in flight), and a ghost count of worker submissions. -/
structure DocumentStream where
  parser : Parser
  batch_start : Nat
  error : ErrorCode
  stage1ThreadParser : Parser
  stage1_thread_error : ErrorCode
  job : Option Nat
  jobs_submitted : Nat

/-- Modelled from the spec: `parser.implementation->stage2_next(parser.doc)`.
Pops the next pending result of the current index into `parser.doc`;
reports `EMPTY` without touching the parser when the index is exhausted. -/
def stage2_next (p : Parser) : ErrorCode × Parser :=
  match p.impl.queue with
  | [] => (.EMPTY, p)
  | (e, d) :: rest => (e, { p with doc := d, impl := { p.impl with queue := rest } })

/-- The statement `error = parser.implementation->stage2_next(parser.doc);`
as a state transformer on the stream. -/
def stage2_set (s : DocumentStream) : DocumentStream :=
  let r := stage2_next s.parser
  { s with error := r.1, parser := r.2 }

/-- `document_stream::next_batch_start()` (source lines 166-168):
`batch_start + parser.implementation->structural_indexes[parser.implementation->n_structural_indexes]`. -/
def next_batch_start (s : DocumentStream) : Nat :=
  s.batch_start + s.parser.impl.structural_indexes s.parser.impl.n_structural_indexes

/-- `document_stream::run_stage1(p, _batch_start)` (source lines 170-178):
final batch (remaining ≤ batch_size) runs stage 1 in complete mode over the
remainder, otherwise partial mode over exactly `batch_size` bytes.  Returns
the status together with the parser whose implementation state was rebuilt. -/
def run_stage1 (env : Env) (p : Parser) (bs : Nat) : ErrorCode × Parser :=
  let remaining := env.len - bs
  if remaining ≤ env.batch_size then
    let r := env.stage1 bs remaining false
    (r.1, { p with impl := r.2 })
  else
    let r := env.stage1 bs env.batch_size true
    (r.1, { p with impl := r.2 })

/-- `document_stream::start_stage1_thread()` (source lines 196-205): store the
`UNINITIALIZED` placeholder into the worker-result field, capture the current
`next_batch_start()`, and submit the job (`worker.run`) for the secondary
parser at that offset. -/
def start_stage1_thread (s : DocumentStream) : DocumentStream :=
  let s1 := { s with stage1_thread_error := ErrorCode.UNINITIALIZED }
  { s1 with job := some (next_batch_start s1), jobs_submitted := s1.jobs_submitted + 1 }

/-- `worker.finish()`: wait for the outstanding job, whose effect (from the
worker loop, source lines 27-43) is
`stage1_thread_error = run_stage1(*stage1ThreadParser, _next_batch_start)`.
With no outstanding job it returns immediately. -/
def worker_finish (env : Env) (s : DocumentStream) : DocumentStream :=
  match s.job with
  | none => s
  | some nbs =>
      let r := run_stage1 env s.stage1ThreadParser nbs
      { s with stage1ThreadParser := r.2, stage1_thread_error := r.1, job := none }

/-- `std::swap(parser, stage1ThreadParser)`. -/
def swapParsers (s : DocumentStream) : DocumentStream :=
  { s with parser := s.stage1ThreadParser, stage1ThreadParser := s.parser }

/-- `document_stream::load_from_stage1_thread()` (source lines 182-194):
wait for the worker, swap primary and secondary parsers, adopt the worker's
status, and if it was a success and input remains, submit the next job. -/
def load_from_stage1_thread (env : Env) (s : DocumentStream) : DocumentStream :=
  let s1 := worker_finish env s
  let s2 := { swapParsers s1 with error := s1.stage1_thread_error }
  if s2.error.isError then s2
  else if next_batch_start s2 < env.len then start_stage1_thread s2
  else s2

/-- The `while (error == EMPTY)` loop of `document_stream::next()` (source
lines 151-163), threads build.  `fuel` bounds the number of iterations (the
C++ loop has no syntactic bound); every theorem below holds for every fuel. -/
def nextLoopT (env : Env) : Nat → DocumentStream → DocumentStream
  | 0, s => s
  | fuel + 1, s =>
    if s.error = ErrorCode.EMPTY then
      let s1 := { s with batch_start := next_batch_start s }
      if env.len ≤ s1.batch_start then s1
      else
        let s2 := load_from_stage1_thread env s1
        if s2.error.isError then nextLoopT env fuel s2
        else nextLoopT env fuel (stage2_set s2)
    else s

/-- `document_stream::next()` (source lines 145-164), threads build: no-op on
any pending error, otherwise run stage 2 for the next document and, while the
batch is exhausted, load further batches. -/
def nextT (env : Env) (fuel : Nat) (s : DocumentStream) : DocumentStream :=
  if s.error.isError then s
  else nextLoopT env fuel (stage2_set s)

/-- Same loop in the non-threads build: the next batch is indexed
synchronously on the primary parser (`error = run_stage1(parser, batch_start)`). -/
def nextLoopNT (env : Env) : Nat → DocumentStream → DocumentStream
  | 0, s => s
  | fuel + 1, s =>
    if s.error = ErrorCode.EMPTY then
      let s1 := { s with batch_start := next_batch_start s }
      if env.len ≤ s1.batch_start then s1
      else
        let r := run_stage1 env s1.parser s1.batch_start
        let s2 := { s1 with error := r.1, parser := r.2 }
        if s2.error.isError then nextLoopNT env fuel s2
        else nextLoopNT env fuel (stage2_set s2)
    else s

/-- `document_stream::next()`, non-threads build. -/
def nextNT (env : Env) (fuel : Nat) (s : DocumentStream) : DocumentStream :=
  if s.error.isError then s
  else nextLoopNT env fuel (stage2_set s)

/-- `document_stream::start()` (source lines 121-143), threads build:
return on a pending error; ensure primary capacity; run stage 1 on batch 0 at
offset 0; if more input remains, ensure secondary capacity and submit the
first worker job; finally delegate to `next()`. -/
def startT (env : Env) (fuel : Nat) (s : DocumentStream) : DocumentStream :=
  if s.error.isError then s
  else
    let s1 := { s with error := env.ensure_capacity env.batch_size }
    if s1.error.isError then s1
    else
      let s2 := { s1 with batch_start := 0 }
      let r := run_stage1 env s2.parser s2.batch_start
      let s3 := { s2 with error := r.1, parser := r.2 }
      if s3.error.isError then s3
      else
        if next_batch_start s3 < env.len then
          let s4 := { s3 with error := env.ensure_capacity env.batch_size }
          if s4.error.isError then s4
          else nextT env fuel (start_stage1_thread s4)
        else nextT env fuel s3

/-- `document_stream::start()`, non-threads build (the `#ifdef` block is
absent). -/
def startNT (env : Env) (fuel : Nat) (s : DocumentStream) : DocumentStream :=
  if s.error.isError then s
  else
    let s1 := { s with error := env.ensure_capacity env.batch_size }
    if s1.error.isError then s1
    else
      let s2 := { s1 with batch_start := 0 }
      let r := run_stage1 env s2.parser s2.batch_start
      let s3 := { s2 with error := r.1, parser := r.2 }
      if s3.error.isError then s3
      else nextNT env fuel s3

/-- The `document_stream` constructor (source lines 72-85) stores the parser
and the construction status.  Modelled from the spec: the remaining members
(declared in the header `simdjson/dom/document_stream.h`, which is outside the
given source) start with the batch cursor at 0, no worker job outstanding, and
the worker-result field at its reserved placeholder. -/
def mkStream (p tp : Parser) (e : ErrorCode) : DocumentStream :=
  { parser := p
    batch_start := 0
    error := e
    stage1ThreadParser := tp
    stage1_thread_error := ErrorCode.UNINITIALIZED
    job := none
    jobs_submitted := 0 }

/-- What a dereference of the iterator can produce: a document root or an
error status (`simdjson_result<element>`). -/
inductive Obs where
  | doc (d : Nat)
  | err (e : ErrorCode)
  deriving DecidableEq, Repr

/-- `document_stream::begin()` (source lines 90-94): run `start()`, then
construct the iterator whose `finished` flag is `error == EMPTY`. -/
def beginStream (env : Env) (fuel : Nat) (s : DocumentStream) : DocumentStream × Bool :=
  let s1 := startT env fuel s
  (s1, decide (s1.error = ErrorCode.EMPTY))

/-- The `finished` flag of the iterator `document_stream::end()` returns. -/
def endFinished : Bool := true

/-- `iterator::operator*` (source lines 104-108): on any stream error, mark
the iterator finished and yield the error; otherwise yield
`parser.doc.root()`.  Returns the observation and the updated flag. -/
def iterDeref (s : DocumentStream) (finished : Bool) : Obs × Bool :=
  if s.error.isError then (Obs.err s.error, true)
  else (Obs.doc s.parser.doc, finished)

/-- `iterator::operator++` with an explicit step function for `stream.next()`
(source lines 110-115): advance the stream, and mark the iterator finished if
the stream ended with the `EMPTY` sentinel. -/
def iterIncW (step : DocumentStream → DocumentStream) (s : DocumentStream)
    (finished : Bool) : DocumentStream × Bool :=
  let s1 := step s
  (s1, if s1.error = ErrorCode.EMPTY then true else finished)

/-- `iterator::operator!=` (source lines 117-119): inequality of the
`finished` flags. -/
def iterNe (a b : Bool) : Bool := a != b

/-- The observation sequence of the iteration protocol
(`for (it = begin; it != end; ++it) use *it`), driven by a step function and
bounded by fuel. -/
def runFor (step : DocumentStream → DocumentStream) :
    Nat → DocumentStream → Bool → List Obs
  | 0, _, _ => []
  | fuel + 1, s, finished =>
    if iterNe finished endFinished then
      let d := iterDeref s finished
      let r := iterIncW step s d.2
      d.1 :: runFor step fuel r.1 r.2
    else []

/-- Full iteration of a freshly constructed stream, threads build:
`begin()` then the range-for protocol. -/
def streamRunT (env : Env) (nFuel itFuel : Nat) (p tp : Parser) (e : ErrorCode) :
    List Obs :=
  let b := beginStream env nFuel (mkStream p tp e)
  runFor (nextT env nFuel) itFuel b.1 b.2

/-- Full iteration of a freshly constructed stream, non-threads build. -/
def streamRunNT (env : Env) (nFuel itFuel : Nat) (p tp : Parser) (e : ErrorCode) :
    List Obs :=
  let s1 := startNT env nFuel (mkStream p tp e)
  runFor (nextNT env nFuel) itFuel s1 (decide (s1.error = ErrorCode.EMPTY))

/-- The caller-observable part of a stream's state: its error, the batch
cursor, and (when no error is pending) the current document root. -/
def obsState (s : DocumentStream) : ErrorCode × Nat × Option Nat :=
  (s.error, s.batch_start,
    if s.error = ErrorCode.SUCCESS then some s.parser.doc else none)

/-- The next-batch-start computation as the spec's sentence literally reads:
current batch start plus the *number of structural index entries* phase 1
reported. -/
def next_batch_start_spec (s : DocumentStream) : Nat :=
  s.batch_start + s.parser.impl.n_structural_indexes

/- ### Invariants and simulation relations used by the theorems -/

/-- No status in a pending stage-2 result list is the reserved placeholder. -/
def QueueWF (q : List (ErrorCode × Nat)) : Prop :=
  ∀ x ∈ q, x.1 ≠ ErrorCode.UNINITIALIZED

/-- The external collaborators never themselves produce the reserved
placeholder status: `UNINITIALIZED` exists only as the value the controller
writes before submitting a worker job. -/
def EnvWF (env : Env) : Prop :=
  (∀ (bs l : Nat) (part : Bool),
     (env.stage1 bs l part).1 ≠ ErrorCode.UNINITIALIZED ∧
     QueueWF (env.stage1 bs l part).2.queue) ∧
  (∀ n : Nat, env.ensure_capacity n ≠ ErrorCode.UNINITIALIZED)

/-- States from which `load_from_stage1_thread` cannot surface the
placeholder: either a job is in flight (so `finish` overwrites the result
field before it is read), or no further batch will ever be loaded, or the
result field already holds a genuine status (with a well-formed pending list
in the secondary parser if that status is a success). -/
def LoadSafe (env : Env) (s : DocumentStream) : Prop :=
  s.job ≠ none ∨ env.len ≤ next_batch_start s ∨
  (s.stage1_thread_error ≠ ErrorCode.UNINITIALIZED ∧
   (s.stage1_thread_error = ErrorCode.SUCCESS →
     QueueWF s.stage1ThreadParser.impl.queue))

/-- The reachable-state invariant for claim C9: the sticky error never holds
the placeholder, and from a live (`SUCCESS`) state the pending results are
well formed and the next batch load is safe. -/
def Inv9 (env : Env) (s : DocumentStream) : Prop :=
  s.error ≠ ErrorCode.UNINITIALIZED ∧
  (s.error = ErrorCode.SUCCESS → QueueWF s.parser.impl.queue ∧ LoadSafe env s)

/-- The outcome of the phase-1 call `run_stage1` issues for a given offset:
it depends only on the environment and the offset, not on which parser holds
the result. -/
def stage1_res (env : Env) (bs : Nat) : ErrorCode × Impl :=
  if env.len - bs ≤ env.batch_size then env.stage1 bs (env.len - bs) false
  else env.stage1 bs env.batch_size true

/-- The byte count batch 0 reports, i.e. `next_batch_start()` right after
stage 1 has run at offset 0. -/
def nbs0 (env : Env) : Nat :=
  (stage1_res env 0).2.structural_indexes (stage1_res env 0).2.n_structural_indexes

/-- Lockstep relation between two threads-build streams that agree on
everything `next()` can read: primary implementation state, batch cursor,
error, job descriptor, and — when no job is in flight — the worker-result
field and the secondary implementation state. -/
def RelR0 (s t : DocumentStream) : Prop :=
  s.parser.impl = t.parser.impl ∧
  s.batch_start = t.batch_start ∧
  s.error = t.error ∧
  s.job = t.job ∧
  (s.job = none → s.stage1_thread_error = t.stage1_thread_error ∧
    s.stage1ThreadParser.impl = t.stage1ThreadParser.impl)

/-- `RelR0` strengthened with agreement of the current document root whenever
it is observable (no pending error). -/
def RelR (s t : DocumentStream) : Prop :=
  RelR0 s t ∧ (s.error = ErrorCode.SUCCESS → s.parser.doc = t.parser.doc)

/-- What the two builds must agree on for the yielded sequence to coincide:
primary implementation state, batch cursor, error, and the current document
root whenever it is observable. -/
def RelC (s t : DocumentStream) : Prop :=
  s.parser.impl = t.parser.impl ∧
  s.batch_start = t.batch_start ∧
  s.error = t.error ∧
  (s.error = ErrorCode.SUCCESS → s.parser.doc = t.parser.doc)

/-- The threads-build job discipline: the outstanding job (if the stream is
live) was submitted for exactly the offset `next()` will compute next, or no
further batch exists. -/
def JobOK (env : Env) (s : DocumentStream) : Prop :=
  s.job = some (next_batch_start s) ∨ env.len ≤ next_batch_start s

/-- The simulation invariant for claim C4: the two builds' states are related
and the threads-build side obeys the job discipline whenever it is live. -/
def C4Inv (env : Env) (s t : DocumentStream) : Prop :=
  RelC s t ∧ (s.error = ErrorCode.SUCCESS → JobOK env s)

/- ### Concrete instances used by witnesses and counterexamples -/

/-- A parser-implementation state reporting 3 structural entries, a recorded
byte count of 8 at every slot, and one pending document with root 42. -/
def exImpl : Impl :=
  { structural_indexes := fun _ => 8
    n_structural_indexes := 3
    queue := [(ErrorCode.SUCCESS, 42)] }

def exParser : Parser := { impl := exImpl, doc := 0 }

/-- An 8-byte input with a 64-byte batch size (single final batch). -/
def exEnv : Env :=
  { len := 8
    batch_size := 64
    stage1 := fun _ _ _ => (ErrorCode.SUCCESS, exImpl)
    ensure_capacity := fun _ => ErrorCode.SUCCESS }

/-- A 100-byte input with a 10-byte batch size (forces partial mode). -/
def exEnvSmall : Env :=
  { len := 100
    batch_size := 10
    stage1 := fun _ _ _ => (ErrorCode.SUCCESS, exImpl)
    ensure_capacity := fun _ => ErrorCode.SUCCESS }

/-- The same environment with a failing allocator. -/
def exEnvCap : Env :=
  { len := 8
    batch_size := 64
    stage1 := fun _ _ _ => (ErrorCode.SUCCESS, exImpl)
    ensure_capacity := fun _ => ErrorCode.MEMALLOC }

/-- A freshly constructed stream with no construction error. -/
def exFresh : DocumentStream := mkStream exParser exParser ErrorCode.SUCCESS

/-- A stream whose sticky error holds a terminal content failure. -/
def exErr : DocumentStream := mkStream exParser exParser ErrorCode.TAPE_ERROR

/-- Implementation state where the entry count (2) differs from the byte count
recorded one slot past the entries (9). -/
def c2Impl : Impl :=
  { structural_indexes := fun k => if k = 2 then 9 else 0
    n_structural_indexes := 2
    queue := [] }

/-- A mid-iteration stream over `c2Impl` whose batch cursor sits at byte 5. -/
def c2Stream : DocumentStream :=
  { mkStream { impl := c2Impl, doc := 0 } { impl := c2Impl, doc := 0 } ErrorCode.SUCCESS with
      batch_start := 5 }

/-- The same state at the moment the batch is exhausted (`EMPTY` raised). -/
def c2Empty : DocumentStream :=
  { mkStream { impl := c2Impl, doc := 0 } { impl := c2Impl, doc := 0 } ErrorCode.EMPTY with
      batch_start := 5 }

/- ### Basic facts about the error test -/

theorem ErrorCode.isError_iff (e : ErrorCode) : e.isError = true ↔ e ≠ .SUCCESS := by
  cases e <;> simp [ErrorCode.isError]

theorem ErrorCode.isError_false_iff (e : ErrorCode) : e.isError = false ↔ e = .SUCCESS := by
  cases e <;> simp [ErrorCode.isError]

/- ### Field-preservation helper lemmas -/

theorem stage2_set_fields (s : DocumentStream) :
    (stage2_set s).batch_start = s.batch_start ∧
    (stage2_set s).job = s.job ∧
    (stage2_set s).jobs_submitted = s.jobs_submitted ∧
    (stage2_set s).parser.impl.structural_indexes = s.parser.impl.structural_indexes ∧
    (stage2_set s).parser.impl.n_structural_indexes = s.parser.impl.n_structural_indexes ∧
    (stage2_set s).stage1ThreadParser = s.stage1ThreadParser ∧
    (stage2_set s).stage1_thread_error = s.stage1_thread_error := by
  unfold stage2_set stage2_next
  rcases h : s.parser.impl.queue with _ | ⟨⟨e, d⟩, rest⟩ <;> simp [h]

theorem next_batch_start_stage2_set (s : DocumentStream) :
    next_batch_start (stage2_set s) = next_batch_start s := by
  have h := stage2_set_fields s
  unfold next_batch_start
  rw [h.1, h.2.2.2.1, h.2.2.2.2.1]

theorem load_batch_start (env : Env) (s : DocumentStream) :
    (load_from_stage1_thread env s).batch_start = s.batch_start := by
  unfold load_from_stage1_thread worker_finish swapParsers start_stage1_thread
  cases s.job <;> simp <;> split_ifs <;> rfl

/-- `next()` is an exact no-op on any pending error (`if (error) return;`). -/
theorem nextT_noop (env : Env) (fuel : Nat) (s : DocumentStream)
    (h : s.error.isError = true) : nextT env fuel s = s := by
  simp [nextT, h]

/- ### Claim C1 -/

/-- Claim C1 (sticky error): for a stream whose error state holds a terminal
non-sentinel failure, every dereference yields that same error value, and any
number of further `next()` calls is an exact no-op — in particular the batch
start offset and the worker-submission count never change. -/
theorem C1_sticky_terminal_error (env : Env) (fuel k : Nat) (f : Bool)
    (s : DocumentStream) (h1 : s.error ≠ ErrorCode.SUCCESS)
    (h2 : s.error ≠ ErrorCode.EMPTY) :
    (iterDeref s f).1 = Obs.err s.error ∧
    Nat.iterate (nextT env fuel) k s = s ∧
    (Nat.iterate (nextT env fuel) k s).batch_start = s.batch_start ∧
    (Nat.iterate (nextT env fuel) k s).jobs_submitted = s.jobs_submitted := by
  have hE : s.error.isError = true := (ErrorCode.isError_iff s.error).2 h1
  have hfix : nextT env fuel s = s := nextT_noop env fuel s hE
  have hit : Nat.iterate (nextT env fuel) k s = s := Function.iterate_fixed hfix k
  exact ⟨by simp [iterDeref, hE], hit, by rw [hit], by rw [hit]⟩

theorem C1_sticky_terminal_error_witness :
    (iterDeref exErr false).1 = Obs.err exErr.error ∧
    Nat.iterate (nextT exEnv 3) 2 exErr = exErr ∧
    (Nat.iterate (nextT exEnv 3) 2 exErr).batch_start = exErr.batch_start ∧
    (Nat.iterate (nextT exEnv 3) 2 exErr).jobs_submitted = exErr.jobs_submitted :=
  C1_sticky_terminal_error exEnv 3 2 false exErr (by decide) (by decide)

/- ### Claim C2 -/

/-- Claim C2 as stated is false: the next batch start is not the current batch
start plus the *number* of structural index entries.  At `c2Stream` the code
adds the value recorded at slot `n_structural_indexes` (9 bytes), not the
entry count (2). -/
theorem C2_counterexample :
    next_batch_start c2Stream ≠ next_batch_start_spec c2Stream := by
  decide

/-- Claim C2 (amended): the start offset of the next batch equals the current
batch start plus the byte count phase 1 recorded at the slot one past its
structural index entries (`structural_indexes[n_structural_indexes]`, the
number of input bytes the indexer consumed) — a content-derived count, never
the nominal batch size.  The second conjunct shows `next()`'s loop installing
exactly that offset when the exhausted batch was the last one. -/
theorem C2_next_batch_start_amended (env : Env) (fuel : Nat) (s : DocumentStream) :
    next_batch_start s =
      s.batch_start +
        s.parser.impl.structural_indexes s.parser.impl.n_structural_indexes ∧
    (s.error = ErrorCode.EMPTY → env.len ≤ next_batch_start s →
      nextLoopT env (fuel + 1) s = { s with batch_start := next_batch_start s }) := by
  refine ⟨rfl, fun hE hlen => ?_⟩
  simp [nextLoopT, hE, hlen]

theorem C2_next_batch_start_amended_witness :
    next_batch_start c2Empty =
      c2Empty.batch_start +
        c2Empty.parser.impl.structural_indexes c2Empty.parser.impl.n_structural_indexes ∧
    nextLoopT exEnv (0 + 1) c2Empty = { c2Empty with batch_start := next_batch_start c2Empty } :=
  have h := C2_next_batch_start_amended exEnv 0 c2Empty
  ⟨h.1, h.2 (by decide) (by decide)⟩

/- ### Claim C3 -/

/-- Claim C3: at any offset within the buffer, if the remaining bytes fit in
the configured batch size, phase 1 is invoked in complete mode (partial flag
`false`) over exactly the remainder; otherwise in partial mode (flag `true`)
over exactly `batch_size` bytes at that offset. -/
theorem C3_run_stage1_mode_policy (env : Env) (p : Parser) (bs : Nat)
    (hbs : bs ≤ env.len) :
    (env.len - bs ≤ env.batch_size →
       run_stage1 env p bs =
         ((env.stage1 bs (env.len - bs) false).1,
          { p with impl := (env.stage1 bs (env.len - bs) false).2 })) ∧
    (env.batch_size < env.len - bs →
       run_stage1 env p bs =
         ((env.stage1 bs env.batch_size true).1,
          { p with impl := (env.stage1 bs env.batch_size true).2 })) := by
  constructor
  · intro h; simp [run_stage1, h]
  · intro h; simp [run_stage1, Nat.not_le.2 h]

theorem C3_run_stage1_mode_policy_witness :
    run_stage1 exEnv exParser 0 =
      ((exEnv.stage1 0 (exEnv.len - 0) false).1,
       { exParser with impl := (exEnv.stage1 0 (exEnv.len - 0) false).2 }) ∧
    run_stage1 exEnvSmall exParser 0 =
      ((exEnvSmall.stage1 0 exEnvSmall.batch_size true).1,
       { exParser with impl := (exEnvSmall.stage1 0 exEnvSmall.batch_size true).2 }) :=
  ⟨(C3_run_stage1_mode_policy exEnv exParser 0 (by decide)).1 (by decide),
   (C3_run_stage1_mode_policy exEnvSmall exParser 0 (by decide)).2 (by decide)⟩

/- ### Claim C6 -/

/-- Claim C6: `begin()` first runs `start()`, and the constructed iterator's
finished flag is set exactly when the stream is then in the `EMPTY` state; in
particular, whenever `start()` ends in any state other than `EMPTY` (e.g. a
well-formed non-empty buffer), `begin()` yields an unfinished iterator. -/
theorem C6_begin_runs_start (env : Env) (fuel : Nat) (s : DocumentStream) :
    (beginStream env fuel s).1 = startT env fuel s ∧
    (beginStream env fuel s).2 = decide ((startT env fuel s).error = ErrorCode.EMPTY) ∧
    ((startT env fuel s).error ≠ ErrorCode.EMPTY → (beginStream env fuel s).2 = false) := by
  refine ⟨rfl, rfl, fun h => ?_⟩
  simp [beginStream, h]

theorem C6_begin_runs_start_witness :
    (startT exEnv 3 exFresh).error ≠ ErrorCode.EMPTY ∧
    (beginStream exEnv 3 exFresh).2 = false :=
  ⟨by decide, (C6_begin_runs_start exEnv 3 exFresh).2.2 (by decide)⟩

/- ### Claim C7 -/

theorem nextLoopT_batch_start_mono (env : Env) (fuel : Nat) :
    ∀ s : DocumentStream, s.batch_start ≤ (nextLoopT env fuel s).batch_start := by
  induction fuel with
  | zero => intro s; exact Nat.le_refl _
  | succ n ih =>
    intro s
    obtain ⟨p, b, e, tp, te, j, js⟩ := s
    by_cases h1 : e = ErrorCode.EMPTY
    · subst h1
      set s1 : DocumentStream :=
        { parser := p, batch_start := next_batch_start ⟨p, b, .EMPTY, tp, te, j, js⟩,
          error := .EMPTY, stage1ThreadParser := tp, stage1_thread_error := te,
          job := j, jobs_submitted := js } with hs1
      have hfirst : b ≤ s1.batch_start := Nat.le_add_right _ _
      by_cases h2 : env.len ≤ s1.batch_start
      · simp only [nextLoopT, if_pos rfl, if_pos h2]
        exact hfirst
      · by_cases h3 : (load_from_stage1_thread env s1).error.isError = true
        · simp only [nextLoopT, if_pos rfl, if_neg h2, h3, if_pos]
          refine Nat.le_trans hfirst ?_
          have hload := load_batch_start env s1
          exact hload ▸ ih _
        · simp only [nextLoopT, if_pos rfl, if_neg h2, h3, Bool.false_eq_true, if_false]
          refine Nat.le_trans hfirst ?_
          have hload := load_batch_start env s1
          have hstage := (stage2_set_fields (load_from_stage1_thread env s1)).1
          have hrec := ih (stage2_set (load_from_stage1_thread env s1))
          rw [hstage, hload] at hrec
          exact hrec
    · simp only [nextLoopT, if_neg h1]
      exact Nat.le_refl _

/-- Claim C7: the batch start offset is monotonically non-decreasing — a
single `next()` never rewinds it, and along any sequence of `start()` followed
by `next()` calls each observed offset is at least the previous one. -/
theorem C7_batch_start_monotone (env : Env) (fuel : Nat) (s : DocumentStream) :
    s.batch_start ≤ (nextT env fuel s).batch_start ∧
    ∀ k : Nat,
      (Nat.iterate (nextT env fuel) k (startT env fuel s)).batch_start ≤
      (Nat.iterate (nextT env fuel) (k + 1) (startT env fuel s)).batch_start := by
  have key : ∀ t : DocumentStream, t.batch_start ≤ (nextT env fuel t).batch_start := by
    intro t
    by_cases h : t.error.isError = true
    · simp only [nextT, h, if_pos]
      exact Nat.le_refl _
    · simp only [nextT, h, Bool.false_eq_true, if_neg, if_false]
      have := nextLoopT_batch_start_mono env fuel (stage2_set t)
      rw [(stage2_set_fields t).1] at this
      exact this
  refine ⟨key s, fun k => ?_⟩
  rw [Function.iterate_succ_apply']
  exact key _

/- ### Claim C8 -/

/-- Claim C8: dereference is idempotent — without advancing, a second
dereference yields the same observation and leaves the finished flag where the
first dereference put it; the observation is the stream's error when one is
pending and the current document root otherwise (no parsing logic runs). -/
theorem C8_deref_idempotent (s : DocumentStream) (f0 : Bool) :
    (iterDeref s (iterDeref s f0).2).1 = (iterDeref s f0).1 ∧
    (iterDeref s (iterDeref s f0).2).2 = (iterDeref s f0).2 ∧
    (iterDeref s f0).1 =
      (if s.error.isError then Obs.err s.error else Obs.doc s.parser.doc) := by
  cases h : s.error.isError <;> simp [iterDeref, h]

/- ### Claim C9: the UNINITIALIZED placeholder is never observable -/

theorem run_stage1_wf (env : Env) (hwf : EnvWF env) (p : Parser) (bs : Nat) :
    (run_stage1 env p bs).1 ≠ ErrorCode.UNINITIALIZED ∧
    QueueWF (run_stage1 env p bs).2.impl.queue := by
  unfold run_stage1
  dsimp only
  split_ifs with h
  · exact ⟨(hwf.1 bs (env.len - bs) false).1, (hwf.1 bs (env.len - bs) false).2⟩
  · exact ⟨(hwf.1 bs env.batch_size true).1, (hwf.1 bs env.batch_size true).2⟩

theorem stage2_next_wf (p : Parser) (hq : QueueWF p.impl.queue) :
    (stage2_next p).1 ≠ ErrorCode.UNINITIALIZED ∧
    QueueWF (stage2_next p).2.impl.queue := by
  unfold stage2_next
  rcases h : p.impl.queue with _ | ⟨⟨e, d⟩, rest⟩
  · simp only [h]
    exact ⟨(fun hx => nomatch hx), h ▸ hq⟩
  · simp only [h]
    refine ⟨?_, ?_⟩
    · have := hq (e, d) (by rw [h]; exact List.mem_cons_self _ _)
      simpa using this
    · intro x hx
      exact hq x (by rw [h]; exact List.mem_cons_of_mem _ hx)

theorem stage2_set_wf (s : DocumentStream) (hq : QueueWF s.parser.impl.queue) :
    (stage2_set s).error ≠ ErrorCode.UNINITIALIZED ∧
    QueueWF (stage2_set s).parser.impl.queue :=
  ⟨(stage2_next_wf s.parser hq).1, (stage2_next_wf s.parser hq).2⟩

theorem LoadSafe_stage2_set (env : Env) (s : DocumentStream) (h : LoadSafe env s) :
    LoadSafe env (stage2_set s) := by
  have hf := stage2_set_fields s
  unfold LoadSafe
  rw [hf.2.1, next_batch_start_stage2_set, hf.2.2.2.2.2.1, hf.2.2.2.2.2.2]
  exact h

/-- One unfolding of the threads-build loop. -/
theorem nextLoopT_succ (env : Env) (n : Nat) (s : DocumentStream) :
    nextLoopT env (n + 1) s =
      if s.error = ErrorCode.EMPTY then
        if env.len ≤ next_batch_start s then { s with batch_start := next_batch_start s }
        else
          if (load_from_stage1_thread env
                { s with batch_start := next_batch_start s }).error.isError then
            nextLoopT env n
              (load_from_stage1_thread env { s with batch_start := next_batch_start s })
          else
            nextLoopT env n
              (stage2_set (load_from_stage1_thread env
                { s with batch_start := next_batch_start s }))
      else s := rfl

/-- Evaluating `load_from_stage1_thread` when a job is in flight. -/
theorem load_some_eq (env : Env) (p tp : Parser) (b : Nat) (e te : ErrorCode)
    (nbs js : Nat) :
    load_from_stage1_thread env ⟨p, b, e, tp, te, some nbs, js⟩ =
      (if (run_stage1 env tp nbs).1.isError then
        ⟨(run_stage1 env tp nbs).2, b, (run_stage1 env tp nbs).1, p,
         (run_stage1 env tp nbs).1, none, js⟩
      else if next_batch_start ⟨(run_stage1 env tp nbs).2, b, (run_stage1 env tp nbs).1, p,
              (run_stage1 env tp nbs).1, none, js⟩ < env.len then
        start_stage1_thread ⟨(run_stage1 env tp nbs).2, b, (run_stage1 env tp nbs).1, p,
          (run_stage1 env tp nbs).1, none, js⟩
      else ⟨(run_stage1 env tp nbs).2, b, (run_stage1 env tp nbs).1, p,
        (run_stage1 env tp nbs).1, none, js⟩) := rfl

/-- Evaluating `load_from_stage1_thread` with no job in flight: `finish`
returns at once and the stale result field is adopted. -/
theorem load_none_eq (env : Env) (p tp : Parser) (b : Nat) (e te : ErrorCode)
    (js : Nat) :
    load_from_stage1_thread env ⟨p, b, e, tp, te, none, js⟩ =
      (if te.isError then ⟨tp, b, te, p, te, none, js⟩
      else if next_batch_start ⟨tp, b, te, p, te, none, js⟩ < env.len then
        start_stage1_thread ⟨tp, b, te, p, te, none, js⟩
      else ⟨tp, b, te, p, te, none, js⟩) := rfl

/-- Evaluating a job submission. -/
theorem start_stage1_thread_eq (p tp : Parser) (b : Nat) (e te : ErrorCode)
    (j : Option Nat) (js : Nat) :
    start_stage1_thread ⟨p, b, e, tp, te, j, js⟩ =
      ⟨p, b, e, tp, ErrorCode.UNINITIALIZED,
       some (b + p.impl.structural_indexes p.impl.n_structural_indexes), js + 1⟩ := rfl

theorem load_inv9 (env : Env) (hwf : EnvWF env) (s1 : DocumentStream)
    (hsafe : s1.job ≠ none ∨
      (s1.stage1_thread_error ≠ ErrorCode.UNINITIALIZED ∧
       (s1.stage1_thread_error = ErrorCode.SUCCESS →
         QueueWF s1.stage1ThreadParser.impl.queue))) :
    (load_from_stage1_thread env s1).error ≠ ErrorCode.UNINITIALIZED ∧
    ((load_from_stage1_thread env s1).error = ErrorCode.SUCCESS →
      QueueWF (load_from_stage1_thread env s1).parser.impl.queue ∧
      LoadSafe env (load_from_stage1_thread env s1)) ∧
    ((load_from_stage1_thread env s1).error = ErrorCode.EMPTY →
      LoadSafe env (load_from_stage1_thread env s1)) := by
  obtain ⟨p, b, e, tp, te, j, js⟩ := s1
  cases j with
  | some nbs =>
    rw [load_some_eq]
    have hr := run_stage1_wf env hwf tp nbs
    revert hr
    generalize run_stage1 env tp nbs = r
    obtain ⟨re, rp⟩ := r
    intro hr
    dsimp only at hr ⊢
    by_cases hie : re.isError = true
    · rw [if_pos hie]
      refine ⟨hr.1, fun hS => absurd hS ((ErrorCode.isError_iff _).1 hie), fun hE => ?_⟩
      dsimp only at hE
      subst hE
      exact Or.inr (Or.inr ⟨(fun hx => nomatch hx), (fun hS' => nomatch hS')⟩)
    · have hS : re = ErrorCode.SUCCESS :=
        (ErrorCode.isError_false_iff _).1 (by simpa using hie)
      subst hS
      rw [if_neg hie]
      by_cases hlt : next_batch_start ⟨rp, b, ErrorCode.SUCCESS, p,
          ErrorCode.SUCCESS, none, js⟩ < env.len
      · rw [if_pos hlt, start_stage1_thread_eq]
        exact ⟨(fun hx => nomatch hx), (fun _ => ⟨hr.2, Or.inl (fun hx => nomatch hx)⟩),
          (fun hE => nomatch hE)⟩
      · rw [if_neg hlt]
        exact ⟨(fun hx => nomatch hx), (fun _ => ⟨hr.2, Or.inr (Or.inl (Nat.not_lt.1 hlt))⟩),
          (fun hE => nomatch hE)⟩
  | none =>
    rcases hsafe with hj | ⟨hte1, hte2⟩
    · exact absurd rfl hj
    rw [load_none_eq]
    dsimp only at hte1 hte2
    by_cases hie : te.isError = true
    · rw [if_pos hie]
      refine ⟨hte1, fun hS => absurd hS ((ErrorCode.isError_iff _).1 hie), fun hE => ?_⟩
      dsimp only at hE
      subst hE
      exact Or.inr (Or.inr ⟨(fun hx => nomatch hx), (fun hS' => nomatch hS')⟩)
    · have hS : te = ErrorCode.SUCCESS :=
        (ErrorCode.isError_false_iff _).1 (by simpa using hie)
      subst hS
      rw [if_neg hie]
      by_cases hlt : next_batch_start ⟨tp, b, ErrorCode.SUCCESS, p,
          ErrorCode.SUCCESS, none, js⟩ < env.len
      · rw [if_pos hlt, start_stage1_thread_eq]
        exact ⟨(fun hx => nomatch hx), (fun _ => ⟨hte2 rfl, Or.inl (fun hx => nomatch hx)⟩),
          (fun hE => nomatch hE)⟩
      · rw [if_neg hlt]
        exact ⟨(fun hx => nomatch hx), (fun _ => ⟨hte2 rfl, Or.inr (Or.inl (Nat.not_lt.1 hlt))⟩),
          (fun hE => nomatch hE)⟩

theorem nextLoopT_inv9 (env : Env) (hwf : EnvWF env) :
    ∀ (fuel : Nat) (s : DocumentStream),
      s.error ≠ ErrorCode.UNINITIALIZED →
      (s.error = ErrorCode.SUCCESS → QueueWF s.parser.impl.queue ∧ LoadSafe env s) →
      (s.error = ErrorCode.EMPTY → LoadSafe env s) →
      Inv9 env (nextLoopT env fuel s) := by
  intro fuel
  induction fuel with
  | zero => intro s h1 h2 _; exact ⟨h1, h2⟩
  | succ n ih =>
    intro s h1 h2 h3
    by_cases hE : s.error = ErrorCode.EMPTY
    · rw [nextLoopT_succ, if_pos hE]
      by_cases hlen : env.len ≤ next_batch_start s
      · rw [if_pos hlen]
        refine ⟨h1, fun hS => ?_⟩
        dsimp only at hS
        rw [hE] at hS
        cases hS
      · rw [if_neg hlen]
        have hsafe : ({ s with batch_start := next_batch_start s } : DocumentStream).job ≠ none ∨
            (({ s with batch_start := next_batch_start s } : DocumentStream).stage1_thread_error ≠
               ErrorCode.UNINITIALIZED ∧
             (({ s with batch_start := next_batch_start s } : DocumentStream).stage1_thread_error =
                ErrorCode.SUCCESS →
               QueueWF ({ s with batch_start := next_batch_start s } :
                 DocumentStream).stage1ThreadParser.impl.queue)) := by
          rcases h3 hE with hj | hlen2 | hte
          · exact Or.inl hj
          · exact absurd hlen2 hlen
          · exact Or.inr hte
        have htriple := load_inv9 env hwf _ hsafe
        by_cases hie : (load_from_stage1_thread env
            { s with batch_start := next_batch_start s }).error.isError = true
        · rw [if_pos hie]
          exact ih _ htriple.1 htriple.2.1 htriple.2.2
        · rw [if_neg hie]
          have hS : (load_from_stage1_thread env
              { s with batch_start := next_batch_start s }).error = ErrorCode.SUCCESS :=
            (ErrorCode.isError_false_iff _).1 (by simpa using hie)
          obtain ⟨hq, hls⟩ := htriple.2.1 hS
          have hw := stage2_set_wf _ hq
          exact ih _ hw.1 (fun _ => ⟨hw.2, LoadSafe_stage2_set env _ hls⟩)
            (fun _ => LoadSafe_stage2_set env _ hls)
    · rw [nextLoopT_succ, if_neg hE]
      exact ⟨h1, h2⟩

theorem nextT_inv9 (env : Env) (hwf : EnvWF env) (fuel : Nat) (s : DocumentStream)
    (h : Inv9 env s) : Inv9 env (nextT env fuel s) := by
  by_cases hie : s.error.isError = true
  · unfold nextT; rw [if_pos hie]; exact h
  · have hS : s.error = ErrorCode.SUCCESS :=
      (ErrorCode.isError_false_iff _).1 (by simpa using hie)
    obtain ⟨hq, hls⟩ := h.2 hS
    have hw := stage2_set_wf s hq
    unfold nextT; rw [if_neg hie]
    exact nextLoopT_inv9 env hwf fuel _ hw.1
      (fun _ => ⟨hw.2, LoadSafe_stage2_set env s hls⟩)
      (fun _ => LoadSafe_stage2_set env s hls)

theorem startT_inv9 (env : Env) (hwf : EnvWF env) (fuel : Nat) (s : DocumentStream)
    (hS : s.error = ErrorCode.SUCCESS) : Inv9 env (startT env fuel s) := by
  obtain ⟨p, b, e, tp, te, j, js⟩ := s
  dsimp only at hS
  subst hS
  unfold startT
  dsimp only
  rw [if_neg (by decide : ¬(ErrorCode.SUCCESS.isError = true))]
  by_cases hc : (env.ensure_capacity env.batch_size).isError = true
  · rw [if_pos hc]
    refine ⟨hwf.2 env.batch_size, fun hS2 => ?_⟩
    dsimp only at hS2
    rw [hS2] at hc
    exact absurd hc (by decide)
  · have hcS : env.ensure_capacity env.batch_size = ErrorCode.SUCCESS :=
      (ErrorCode.isError_false_iff _).1 (by simpa using hc)
    rw [if_neg hc, hcS]
    have hr := run_stage1_wf env hwf p 0
    revert hr
    generalize run_stage1 env p 0 = r
    obtain ⟨re, rp⟩ := r
    intro hr
    dsimp only at hr ⊢
    by_cases hrE : re.isError = true
    · rw [if_pos hrE]
      exact ⟨hr.1, fun hS2 => absurd hS2 ((ErrorCode.isError_iff _).1 hrE)⟩
    · have hrS : re = ErrorCode.SUCCESS :=
        (ErrorCode.isError_false_iff _).1 (by simpa using hrE)
      subst hrS
      rw [if_neg hrE]
      by_cases hlt : next_batch_start ⟨rp, 0, ErrorCode.SUCCESS, tp, te, j, js⟩ < env.len
      · rw [if_pos hlt]
        rw [if_neg (by decide : ¬(ErrorCode.SUCCESS.isError = true))]
        apply nextT_inv9 env hwf fuel
        rw [start_stage1_thread_eq]
        exact ⟨(fun hx => nomatch hx), (fun _ => ⟨hr.2, Or.inl (fun hx => nomatch hx)⟩)⟩
      · rw [if_neg hlt]
        apply nextT_inv9 env hwf fuel
        exact ⟨(fun hx => nomatch hx), (fun _ => ⟨hr.2, Or.inr (Or.inl (Nat.not_lt.1 hlt))⟩)⟩

/-- Claim C9: the `UNINITIALIZED` placeholder status is never observable by a
caller.  It is written into the worker-result field (together with the job
descriptor) at every submission, the controller reads that field only after
`worker.finish()` has applied the job's real status, and along all states
reachable from a successful `start()` the invariant `Inv9` holds, so no
dereference ever surfaces the placeholder. -/
theorem C9_uninitialized_never_observable (env : Env) (hwf : EnvWF env) :
    (∀ (fuel : Nat) (s : DocumentStream), Inv9 env s → Inv9 env (nextT env fuel s)) ∧
    (∀ (fuel : Nat) (s : DocumentStream), s.error = ErrorCode.SUCCESS →
       Inv9 env (startT env fuel s)) ∧
    (∀ (s : DocumentStream) (f : Bool), Inv9 env s →
       (iterDeref s f).1 ≠ Obs.err ErrorCode.UNINITIALIZED) ∧
    (∀ s : DocumentStream,
       (start_stage1_thread s).stage1_thread_error = ErrorCode.UNINITIALIZED ∧
       (start_stage1_thread s).job = some (next_batch_start s) ∧
       (start_stage1_thread s).jobs_submitted = s.jobs_submitted + 1) := by
  refine ⟨nextT_inv9 env hwf, startT_inv9 env hwf, fun s f h => ?_, fun s => ⟨rfl, rfl, rfl⟩⟩
  unfold iterDeref
  by_cases hie : s.error.isError = true
  · rw [if_pos hie]
    intro heq
    exact h.1 (by injection heq)
  · rw [if_neg hie]
    intro heq
    cases heq

theorem C9_uninitialized_never_observable_witness :
    Inv9 exEnv (startT exEnv 3 exFresh) ∧
    (iterDeref exFresh false).1 ≠ Obs.err ErrorCode.UNINITIALIZED :=
  have hwf : EnvWF exEnv :=
    ⟨(fun _ _ _ => ⟨(fun hx => nomatch hx),
        (fun x hx => by simp [exEnv, exImpl] at hx; simp [hx])⟩),
     (fun _ hx => nomatch hx)⟩
  have hinv : Inv9 exEnv exFresh :=
    ⟨(fun hx => nomatch hx),
     (fun _ => ⟨(fun x hx => by simp [exFresh, mkStream, exParser, exImpl] at hx; simp [hx]),
        Or.inr (Or.inl (by decide))⟩)⟩
  have h := C9_uninitialized_never_observable exEnv hwf
  ⟨h.2.1 3 exFresh (by decide), h.2.2.1 exFresh false hinv⟩

/- ### Claim C5: start() is idempotent -/

theorem run_stage1_eq (env : Env) (p : Parser) (bs : Nat) :
    run_stage1 env p bs =
      ((stage1_res env bs).1, { p with impl := (stage1_res env bs).2 }) := by
  unfold run_stage1 stage1_res
  dsimp only
  split_ifs with h <;> rfl

theorem next_batch_start_mk (p : Parser) (b : Nat) (e : ErrorCode) (tp : Parser)
    (te : ErrorCode) (j : Option Nat) (js : Nat) :
    next_batch_start ⟨p, b, e, tp, te, j, js⟩ =
      b + p.impl.structural_indexes p.impl.n_structural_indexes := rfl

theorem stage2_next_nil (p : Parser) (h : p.impl.queue = []) :
    stage2_next p = (ErrorCode.EMPTY, p) := by
  unfold stage2_next
  rw [h]

theorem stage2_next_cons (p : Parser) (e : ErrorCode) (d : Nat)
    (rest : List (ErrorCode × Nat)) (h : p.impl.queue = (e, d) :: rest) :
    stage2_next p = (e, { p with doc := d, impl := { p.impl with queue := rest } }) := by
  unfold stage2_next
  rw [h]

theorem stage2_rel (p q : Parser) (h : p.impl = q.impl) :
    (stage2_next p).1 = (stage2_next q).1 ∧
    (stage2_next p).2.impl = (stage2_next q).2.impl ∧
    ((stage2_next p).1 = ErrorCode.SUCCESS →
      (stage2_next p).2.doc = (stage2_next q).2.doc) := by
  rcases hq : q.impl.queue with _ | ⟨⟨e, d⟩, rest⟩
  · have hp : p.impl.queue = [] := by rw [h, hq]
    rw [stage2_next_nil p hp, stage2_next_nil q hq]
    exact ⟨rfl, h, (fun hS => nomatch hS)⟩
  · have hp : p.impl.queue = (e, d) :: rest := by rw [h, hq]
    rw [stage2_next_cons p e d rest hp, stage2_next_cons q e d rest hq]
    refine ⟨rfl, ?_, fun _ => rfl⟩
    dsimp only
    rw [h]

theorem stage2_set_relR (s t : DocumentStream) (h : RelR0 s t) :
    RelR (stage2_set s) (stage2_set t) := by
  obtain ⟨himpl, hbs, herr, hjob, hth⟩ := h
  have hr := stage2_rel s.parser t.parser himpl
  have hfs := stage2_set_fields s
  have hft := stage2_set_fields t
  refine ⟨⟨hr.2.1, ?_, hr.1, ?_, ?_⟩, fun hS => hr.2.2 hS⟩
  · rw [hfs.1, hft.1]; exact hbs
  · rw [hfs.2.1, hft.2.1]; exact hjob
  · rw [hfs.2.1]
    intro hn
    have hx := hth hn
    rw [hfs.2.2.2.2.2.1, hft.2.2.2.2.2.1, hfs.2.2.2.2.2.2, hft.2.2.2.2.2.2]
    exact hx

theorem load_relR (env : Env) (s t : DocumentStream) (h : RelR0 s t) :
    RelR0 (load_from_stage1_thread env s) (load_from_stage1_thread env t) := by
  obtain ⟨ps, bs1, es, tps, tes, js1, jss⟩ := s
  obtain ⟨pt, bt1, et, tpt, tet, jt1, jst⟩ := t
  obtain ⟨himpl, hbs, herr, hjob, hth⟩ := h
  dsimp only at himpl hbs herr hjob hth
  subst hbs; subst herr; subst hjob
  cases js1 with
  | some nbs =>
    rw [load_some_eq, load_some_eq, run_stage1_eq env tps nbs, run_stage1_eq env tpt nbs]
    dsimp only
    by_cases hie : (stage1_res env nbs).1.isError = true
    · rw [if_pos hie, if_pos hie]
      exact ⟨rfl, rfl, rfl, rfl, (fun _ => ⟨rfl, himpl⟩)⟩
    · rw [if_neg hie, if_neg hie]
      by_cases hlt : next_batch_start ⟨{ tps with impl := (stage1_res env nbs).2 }, bs1,
          (stage1_res env nbs).1, ps, (stage1_res env nbs).1, none, jss⟩ < env.len
      · have hlt' : next_batch_start ⟨{ tpt with impl := (stage1_res env nbs).2 }, bs1,
            (stage1_res env nbs).1, pt, (stage1_res env nbs).1, none, jst⟩ < env.len := hlt
        rw [if_pos hlt, if_pos hlt', start_stage1_thread_eq, start_stage1_thread_eq]
        exact ⟨rfl, rfl, rfl, rfl, (fun hn => nomatch hn)⟩
      · have hlt' : ¬(next_batch_start ⟨{ tpt with impl := (stage1_res env nbs).2 }, bs1,
            (stage1_res env nbs).1, pt, (stage1_res env nbs).1, none, jst⟩ < env.len) := hlt
        rw [if_neg hlt, if_neg hlt']
        exact ⟨rfl, rfl, rfl, rfl, (fun _ => ⟨rfl, himpl⟩)⟩
  | none =>
    obtain ⟨hte, htp⟩ := hth rfl
    subst hte
    rw [load_none_eq, load_none_eq]
    by_cases hie : tes.isError = true
    · rw [if_pos hie, if_pos hie]
      exact ⟨htp, rfl, rfl, rfl, (fun _ => ⟨rfl, himpl⟩)⟩
    · rw [if_neg hie, if_neg hie]
      have hnbs2 : next_batch_start ⟨tps, bs1, tes, ps, tes, none, jss⟩ =
          next_batch_start ⟨tpt, bs1, tes, pt, tes, none, jst⟩ := by
        rw [next_batch_start_mk, next_batch_start_mk, htp]
      by_cases hlt : next_batch_start ⟨tps, bs1, tes, ps, tes, none, jss⟩ < env.len
      · rw [if_pos hlt, if_pos (by rw [← hnbs2]; exact hlt),
          start_stage1_thread_eq, start_stage1_thread_eq]
        refine ⟨htp, rfl, rfl, ?_, (fun hn => nomatch hn)⟩
        dsimp only
        rw [htp]
      · rw [if_neg hlt, if_neg (by rw [← hnbs2]; exact hlt)]
        exact ⟨htp, rfl, rfl, rfl, (fun _ => ⟨rfl, himpl⟩)⟩

theorem nextLoopT_relR (env : Env) :
    ∀ (fuel : Nat) (s t : DocumentStream), RelR s t →
      RelR (nextLoopT env fuel s) (nextLoopT env fuel t) := by
  intro fuel
  induction fuel with
  | zero => intro s t h; exact h
  | succ n ih =>
    intro s t h
    obtain ⟨⟨himpl, hbs, herr, hjob, hth⟩, hdoc⟩ := h
    by_cases hE : s.error = ErrorCode.EMPTY
    · have hEt : t.error = ErrorCode.EMPTY := by rw [← herr]; exact hE
      rw [nextLoopT_succ env n s, nextLoopT_succ env n t, if_pos hE, if_pos hEt]
      have hnbs : next_batch_start s = next_batch_start t := by
        unfold next_batch_start; rw [hbs, himpl]
      by_cases hlen : env.len ≤ next_batch_start s
      · have hlent : env.len ≤ next_batch_start t := by rw [← hnbs]; exact hlen
        rw [if_pos hlen, if_pos hlent]
        refine ⟨⟨himpl, hnbs, herr, hjob, hth⟩, fun hS => ?_⟩
        exact absurd (show s.error = ErrorCode.SUCCESS from hS) (by rw [hE]; decide)
      · have hlent : ¬(env.len ≤ next_batch_start t) := by rw [← hnbs]; exact hlen
        rw [if_neg hlen, if_neg hlent]
        have h2 := load_relR env { s with batch_start := next_batch_start s }
          { t with batch_start := next_batch_start t } ⟨himpl, hnbs, herr, hjob, hth⟩
        obtain ⟨himpl2, hbs2, herr2, hjob2, hth2⟩ := h2
        by_cases hie : (load_from_stage1_thread env
            { s with batch_start := next_batch_start s }).error.isError = true
        · have hiet : (load_from_stage1_thread env
              { t with batch_start := next_batch_start t }).error.isError = true := by
            rw [← herr2]; exact hie
          rw [if_pos hie, if_pos hiet]
          exact ih _ _ ⟨⟨himpl2, hbs2, herr2, hjob2, hth2⟩,
            fun hS => absurd hS ((ErrorCode.isError_iff _).1 hie)⟩
        · have hiet : ¬((load_from_stage1_thread env
              { t with batch_start := next_batch_start t }).error.isError = true) := by
            rw [← herr2]; exact hie
          rw [if_neg hie, if_neg hiet]
          exact ih _ _ (stage2_set_relR _ _ ⟨himpl2, hbs2, herr2, hjob2, hth2⟩)
    · have hEt : ¬(t.error = ErrorCode.EMPTY) := by rw [← herr]; exact hE
      rw [nextLoopT_succ env n s, nextLoopT_succ env n t, if_neg hE, if_neg hEt]
      exact ⟨⟨himpl, hbs, herr, hjob, hth⟩, hdoc⟩

theorem nextT_relR0 (env : Env) (fuel : Nat) (s t : DocumentStream) (h : RelR0 s t) :
    RelR (nextT env fuel s) (nextT env fuel t) := by
  obtain ⟨himpl, hbs, herr, hjob, hth⟩ := h
  by_cases hie : s.error.isError = true
  · have hiet : t.error.isError = true := by rw [← herr]; exact hie
    unfold nextT
    rw [if_pos hie, if_pos hiet]
    exact ⟨⟨himpl, hbs, herr, hjob, hth⟩, fun hS => absurd hS ((ErrorCode.isError_iff _).1 hie)⟩
  · have hiet : ¬(t.error.isError = true) := by rw [← herr]; exact hie
    unfold nextT
    rw [if_neg hie, if_neg hiet]
    exact nextLoopT_relR env fuel _ _ (stage2_set_relR s t ⟨himpl, hbs, herr, hjob, hth⟩)

theorem relR_obs (s t : DocumentStream) (h : RelR s t) : obsState s = obsState t := by
  obtain ⟨⟨himpl, hbs, herr, hjob, hth⟩, hdoc⟩ := h
  unfold obsState
  rw [herr, hbs]
  by_cases hS : t.error = ErrorCode.SUCCESS
  · rw [if_pos hS, if_pos hS, hdoc (by rw [herr]; exact hS)]
  · rw [if_neg hS, if_neg hS]

/-- `start()` is an exact no-op on a pending error. -/
theorem startT_noop (env : Env) (fuel : Nat) (s : DocumentStream)
    (h : s.error.isError = true) : startT env fuel s = s := by
  simp [startT, h]

theorem startT_eq_capfail (env : Env) (fuel : Nat) (s : DocumentStream)
    (hs : s.error = ErrorCode.SUCCESS)
    (hc : (env.ensure_capacity env.batch_size).isError = true) :
    startT env fuel s = { s with error := env.ensure_capacity env.batch_size } := by
  unfold startT
  dsimp only
  rw [if_neg (by rw [hs]; decide), if_pos hc]

theorem startT_eq_err (env : Env) (fuel : Nat) (s : DocumentStream)
    (hs : s.error = ErrorCode.SUCCESS)
    (hc : env.ensure_capacity env.batch_size = ErrorCode.SUCCESS)
    (h1 : (stage1_res env 0).1.isError = true) :
    startT env fuel s =
      { s with
          batch_start := 0
          error := (stage1_res env 0).1
          parser := { s.parser with impl := (stage1_res env 0).2 } } := by
  unfold startT
  dsimp only
  rw [hc]
  rw [if_neg (by rw [hs]; decide), if_neg (by decide)]
  rw [run_stage1_eq]
  dsimp only
  rw [if_pos h1]

theorem startT_eq_submit (env : Env) (fuel : Nat) (s : DocumentStream)
    (hs : s.error = ErrorCode.SUCCESS)
    (hc : env.ensure_capacity env.batch_size = ErrorCode.SUCCESS)
    (h1 : (stage1_res env 0).1 = ErrorCode.SUCCESS) (h2 : nbs0 env < env.len) :
    startT env fuel s = nextT env fuel (start_stage1_thread
      { s with
          batch_start := 0
          error := ErrorCode.SUCCESS
          parser := { s.parser with impl := (stage1_res env 0).2 } }) := by
  unfold startT
  dsimp only
  rw [hc]
  rw [if_neg (by rw [hs]; decide), if_neg (by decide)]
  rw [run_stage1_eq]
  dsimp only
  rw [h1]
  rw [if_neg (by decide)]
  have h2' : next_batch_start
      { s with
          batch_start := 0
          error := ErrorCode.SUCCESS
          parser := { s.parser with impl := (stage1_res env 0).2 } } < env.len := by
    show 0 + (stage1_res env 0).2.structural_indexes
      (stage1_res env 0).2.n_structural_indexes < env.len
    rw [Nat.zero_add]
    exact h2
  rw [if_pos h2', if_neg (by decide)]

theorem startT_eq_nosubmit (env : Env) (fuel : Nat) (s : DocumentStream)
    (hs : s.error = ErrorCode.SUCCESS)
    (hc : env.ensure_capacity env.batch_size = ErrorCode.SUCCESS)
    (h1 : (stage1_res env 0).1 = ErrorCode.SUCCESS) (h2 : ¬(nbs0 env < env.len)) :
    startT env fuel s = nextT env fuel
      { s with
          batch_start := 0
          error := ErrorCode.SUCCESS
          parser := { s.parser with impl := (stage1_res env 0).2 } } := by
  unfold startT
  dsimp only
  rw [hc]
  rw [if_neg (by rw [hs]; decide), if_neg (by decide)]
  rw [run_stage1_eq]
  dsimp only
  rw [h1]
  rw [if_neg (by decide)]
  have h2' : ¬(next_batch_start
      { s with
          batch_start := 0
          error := ErrorCode.SUCCESS
          parser := { s.parser with impl := (stage1_res env 0).2 } } < env.len) := by
    intro hx
    have hx' : 0 + (stage1_res env 0).2.structural_indexes
        (stage1_res env 0).2.n_structural_indexes < env.len := hx
    rw [Nat.zero_add] at hx'
    exact h2 hx'
  rw [if_neg h2']

theorem nextLoopT_fields_escape (env : Env) (fuel : Nat) (s : DocumentStream)
    (hesc : env.len ≤ next_batch_start s) :
    (nextLoopT env fuel s).job = s.job ∧
    (nextLoopT env fuel s).stage1_thread_error = s.stage1_thread_error ∧
    (nextLoopT env fuel s).stage1ThreadParser = s.stage1ThreadParser := by
  cases fuel with
  | zero => exact ⟨rfl, rfl, rfl⟩
  | succ n =>
    rw [nextLoopT_succ]
    by_cases hE : s.error = ErrorCode.EMPTY
    · rw [if_pos hE, if_pos hesc]
      exact ⟨rfl, rfl, rfl⟩
    · rw [if_neg hE]
      exact ⟨rfl, rfl, rfl⟩

theorem nextT_fields_escape (env : Env) (fuel : Nat) (s : DocumentStream)
    (hesc : env.len ≤ next_batch_start s) :
    (nextT env fuel s).job = s.job ∧
    (nextT env fuel s).stage1_thread_error = s.stage1_thread_error ∧
    (nextT env fuel s).stage1ThreadParser = s.stage1ThreadParser := by
  unfold nextT
  by_cases hie : s.error.isError = true
  · rw [if_pos hie]
    exact ⟨rfl, rfl, rfl⟩
  · rw [if_neg hie]
    have h2 := nextLoopT_fields_escape env fuel (stage2_set s)
      (by rw [next_batch_start_stage2_set]; exact hesc)
    have hf := stage2_set_fields s
    exact ⟨by rw [h2.1, hf.2.1], by rw [h2.2.1, hf.2.2.2.2.2.2],
      by rw [h2.2.2, hf.2.2.2.2.2.1]⟩

theorem startT_success_inversion (env : Env) (fuel : Nat) (s : DocumentStream)
    (h : (startT env fuel s).error = ErrorCode.SUCCESS) :
    s.error = ErrorCode.SUCCESS ∧
    env.ensure_capacity env.batch_size = ErrorCode.SUCCESS := by
  by_cases hs : s.error.isError = true
  · exfalso
    rw [startT_noop env fuel s hs] at h
    exact (ErrorCode.isError_iff _).1 hs h
  · have hs' : s.error = ErrorCode.SUCCESS :=
      (ErrorCode.isError_false_iff _).1 (by simpa using hs)
    refine ⟨hs', ?_⟩
    by_cases hc : (env.ensure_capacity env.batch_size).isError = true
    · exfalso
      rw [startT_eq_capfail env fuel s hs' hc] at h
      dsimp only at h
      rw [h] at hc
      exact absurd hc (by decide)
    · exact (ErrorCode.isError_false_iff _).1 (by simpa using hc)

theorem startT_replay (env : Env) (fuel : Nat) (s t : DocumentStream)
    (hs : s.error = ErrorCode.SUCCESS) (ht : t.error = ErrorCode.SUCCESS)
    (hc : env.ensure_capacity env.batch_size = ErrorCode.SUCCESS)
    (hagree : (s.job = t.job ∧ (s.job = none →
        s.stage1_thread_error = t.stage1_thread_error ∧
        s.stage1ThreadParser.impl = t.stage1ThreadParser.impl))
      ∨ ((stage1_res env 0).1 = ErrorCode.SUCCESS ∧ nbs0 env < env.len)) :
    obsState (startT env fuel s) = obsState (startT env fuel t) := by
  by_cases h1 : (stage1_res env 0).1.isError = true
  · rw [startT_eq_err env fuel s hs hc h1, startT_eq_err env fuel t ht hc h1]
    unfold obsState
    dsimp only
    rw [if_neg ((ErrorCode.isError_iff _).1 h1), if_neg ((ErrorCode.isError_iff _).1 h1)]
  · have h1' : (stage1_res env 0).1 = ErrorCode.SUCCESS :=
      (ErrorCode.isError_false_iff _).1 (by simpa using h1)
    by_cases h2 : nbs0 env < env.len
    · rw [startT_eq_submit env fuel s hs hc h1' h2, startT_eq_submit env fuel t ht hc h1' h2]
      exact relR_obs _ _ (nextT_relR0 env fuel _ _
        ⟨rfl, rfl, rfl, rfl, (fun hn => nomatch hn)⟩)
    · have hag := hagree.resolve_right (fun hr => h2 hr.2)
      rw [startT_eq_nosubmit env fuel s hs hc h1' h2,
        startT_eq_nosubmit env fuel t ht hc h1' h2]
      exact relR_obs _ _ (nextT_relR0 env fuel _ _
        ⟨rfl, rfl, rfl, hag.1, (fun hn => hag.2 hn)⟩)

/-- Claim C5: `start()` is idempotent.  On a stream already in an error state
it returns immediately without modifying anything; a second call after a first
call leaves the observable state (error, batch start offset, current document
root) unchanged; and an `ensure_capacity` failure in `start()` is terminal:
it becomes the stream's error and every subsequent `next()` is a no-op. -/
theorem C5_start_idempotent (env : Env) (fuel : Nat) (s : DocumentStream) :
    (s.error ≠ ErrorCode.SUCCESS → startT env fuel s = s) ∧
    obsState (startT env fuel (startT env fuel s)) = obsState (startT env fuel s) ∧
    (s.error = ErrorCode.SUCCESS → (env.ensure_capacity env.batch_size).isError = true →
       (startT env fuel s).error = env.ensure_capacity env.batch_size ∧
       ∀ fuel2 : Nat, nextT env fuel2 (startT env fuel s) = startT env fuel s) := by
  refine ⟨fun h => startT_noop env fuel s ((ErrorCode.isError_iff _).2 h), ?_, fun hs hc => ?_⟩
  · by_cases hs : s.error = ErrorCode.SUCCESS
    · by_cases ht : (startT env fuel s).error = ErrorCode.SUCCESS
      · have hc := (startT_success_inversion env fuel s ht).2
        apply startT_replay env fuel (startT env fuel s) s ht hs hc
        by_cases h1 : (stage1_res env 0).1.isError = true
        · exfalso
          rw [startT_eq_err env fuel s hs hc h1] at ht
          dsimp only at ht
          exact (ErrorCode.isError_iff _).1 h1 ht
        · have h1' : (stage1_res env 0).1 = ErrorCode.SUCCESS :=
            (ErrorCode.isError_false_iff _).1 (by simpa using h1)
          by_cases h2 : nbs0 env < env.len
          · exact Or.inr ⟨h1', h2⟩
          · left
            rw [startT_eq_nosubmit env fuel s hs hc h1' h2]
            have hesc : env.len ≤ next_batch_start
                { s with
                    batch_start := 0
                    error := ErrorCode.SUCCESS
                    parser := { s.parser with impl := (stage1_res env 0).2 } } := by
              show env.len ≤ 0 + (stage1_res env 0).2.structural_indexes
                (stage1_res env 0).2.n_structural_indexes
              rw [Nat.zero_add]
              exact Nat.not_lt.1 h2
            have hfe := nextT_fields_escape env fuel _ hesc
            refine ⟨by rw [hfe.1], fun _ => ⟨by rw [hfe.2.1], by rw [hfe.2.2]⟩⟩
      · rw [startT_noop env fuel _ ((ErrorCode.isError_iff _).2 ht)]
    · have h' := (ErrorCode.isError_iff s.error).2 hs
      rw [startT_noop env fuel s h', startT_noop env fuel s h']
  · have heq := startT_eq_capfail env fuel s hs hc
    refine ⟨by rw [heq], fun fuel2 => ?_⟩
    rw [heq]
    exact nextT_noop env fuel2 _ hc

theorem C5_start_idempotent_witness :
    startT exEnv 2 exErr = exErr ∧
    (startT exEnvCap 2 exFresh).error = exEnvCap.ensure_capacity exEnvCap.batch_size ∧
    nextT exEnvCap 4 (startT exEnvCap 2 exFresh) = startT exEnvCap 2 exFresh :=
  ⟨(C5_start_idempotent exEnv 2 exErr).1 (by decide),
   ((C5_start_idempotent exEnvCap 2 exFresh).2.2 (by decide) (by decide)).1,
   ((C5_start_idempotent exEnvCap 2 exFresh).2.2 (by decide) (by decide)).2 4⟩

/- ### Claim C4: pipelined and synchronous batch loading are equivalent -/

/-- One unfolding of the non-threads-build loop. -/
theorem nextLoopNT_succ (env : Env) (n : Nat) (t : DocumentStream) :
    nextLoopNT env (n + 1) t =
      if t.error = ErrorCode.EMPTY then
        if env.len ≤ next_batch_start t then { t with batch_start := next_batch_start t }
        else
          if (run_stage1 env t.parser (next_batch_start t)).1.isError = true then
            nextLoopNT env n
              { t with
                  batch_start := next_batch_start t
                  error := (run_stage1 env t.parser (next_batch_start t)).1
                  parser := (run_stage1 env t.parser (next_batch_start t)).2 }
          else
            nextLoopNT env n (stage2_set
              { t with
                  batch_start := next_batch_start t
                  error := (run_stage1 env t.parser (next_batch_start t)).1
                  parser := (run_stage1 env t.parser (next_batch_start t)).2 })
      else t := rfl

theorem stage1_res_ne_EMPTY (env : Env)
    (hne : ∀ (bs l : Nat) (part : Bool), (env.stage1 bs l part).1 ≠ ErrorCode.EMPTY)
    (b : Nat) : (stage1_res env b).1 ≠ ErrorCode.EMPTY := by
  unfold stage1_res
  split_ifs with h
  · exact hne _ _ _
  · exact hne _ _ _

theorem JobOK_stage2_set (env : Env) (s : DocumentStream) (h : JobOK env s) :
    JobOK env (stage2_set s) := by
  unfold JobOK at h ⊢
  rw [(stage2_set_fields s).2.1, next_batch_start_stage2_set]
  exact h

theorem nextLoopTN (env : Env)
    (hne : ∀ (bs l : Nat) (part : Bool), (env.stage1 bs l part).1 ≠ ErrorCode.EMPTY) :
    ∀ (fuel : Nat) (s t : DocumentStream), RelC s t →
      ((s.error = ErrorCode.EMPTY ∨ s.error = ErrorCode.SUCCESS) → JobOK env s) →
      C4Inv env (nextLoopT env fuel s) (nextLoopNT env fuel t) := by
  intro fuel
  induction fuel with
  | zero =>
    intro s t h hj
    exact ⟨h, fun hS => hj (Or.inr hS)⟩
  | succ n ih =>
    intro s t h hj
    obtain ⟨h1, h2, h3, h4⟩ := h
    obtain ⟨ps, bs1, es, tps, tes, js1, jss⟩ := s
    obtain ⟨pt, bt1, et, tpt, tet, jt1, jst⟩ := t
    dsimp only at h1 h2 h3 h4 hj
    subst h2
    subst h3
    by_cases hE : es = ErrorCode.EMPTY
    · subst hE
      rw [nextLoopT_succ, nextLoopNT_succ]
      simp only [next_batch_start_mk]
      rw [if_pos trivial, if_pos trivial, ← h1]
      by_cases hlen : env.len ≤ bs1 + ps.impl.structural_indexes ps.impl.n_structural_indexes
      · rw [if_pos hlen, if_pos hlen]
        exact ⟨⟨h1, rfl, rfl, (fun hS => nomatch hS)⟩, (fun hS => nomatch hS)⟩
      · rw [if_neg hlen, if_neg hlen]
        have hjok := hj (Or.inl rfl)
        unfold JobOK at hjok
        simp only [next_batch_start_mk] at hjok
        have hjob : js1 = some (bs1 + ps.impl.structural_indexes ps.impl.n_structural_indexes) :=
          hjok.resolve_right hlen
        subst hjob
        have hneE := stage1_res_ne_EMPTY env hne
          (bs1 + ps.impl.structural_indexes ps.impl.n_structural_indexes)
        have hld := load_some_eq env ps tps
          (bs1 + ps.impl.structural_indexes ps.impl.n_structural_indexes) ErrorCode.EMPTY tes
          (bs1 + ps.impl.structural_indexes ps.impl.n_structural_indexes) jss
        rw [run_stage1_eq] at hld
        dsimp only at hld
        rw [run_stage1_eq]
        dsimp only
        revert hld hneE hlen
        generalize bs1 + ps.impl.structural_indexes ps.impl.n_structural_indexes = b
        intro hlen hneE hld
        revert hld hneE
        generalize stage1_res env b = rr
        obtain ⟨E, X⟩ := rr
        intro hneE hld
        dsimp only at hld hneE
        by_cases hie : E.isError = true
        · rw [if_pos hie] at hld
          have hcond : (load_from_stage1_thread env
              ⟨ps, b, ErrorCode.EMPTY, tps, tes, some b, jss⟩).error.isError = true := by
            rw [hld]; exact hie
          rw [if_pos hcond, if_pos hie, hld]
          apply ih
          · exact ⟨rfl, rfl, rfl, (fun hS => absurd hS ((ErrorCode.isError_iff _).1 hie))⟩
          · intro hor
            rcases hor with hEE | hSS
            · exact absurd hEE hneE
            · exact absurd hSS ((ErrorCode.isError_iff _).1 hie)
        · have hES : E = ErrorCode.SUCCESS :=
            (ErrorCode.isError_false_iff _).1 (by simpa using hie)
          subst hES
          rw [if_neg hie] at hld
          simp only [next_batch_start_mk] at hld
          rw [if_neg hie]
          by_cases hlt : b + X.structural_indexes X.n_structural_indexes < env.len
          · rw [if_pos hlt] at hld
            rw [start_stage1_thread_eq] at hld
            have hcond : (load_from_stage1_thread env
                ⟨ps, b, ErrorCode.EMPTY, tps, tes, some b, jss⟩).error.isError = false := by
              rw [hld]; rfl
            rw [hcond]
            rw [if_neg (by decide : ¬(false = true)), hld]
            apply ih
            · have hrel := stage2_rel ({ tps with impl := X }) ({ pt with impl := X }) rfl
              exact ⟨hrel.2.1,
                by rw [(stage2_set_fields _).1, (stage2_set_fields _).1],
                hrel.1, hrel.2.2⟩
            · refine fun _ => Or.inl ?_
              rw [(stage2_set_fields _).2.1, next_batch_start_stage2_set]
              rfl
          · rw [if_neg hlt] at hld
            have hcond : (load_from_stage1_thread env
                ⟨ps, b, ErrorCode.EMPTY, tps, tes, some b, jss⟩).error.isError = false := by
              rw [hld]; rfl
            rw [hcond]
            rw [if_neg (by decide : ¬(false = true)), hld]
            apply ih
            · have hrel := stage2_rel ({ tps with impl := X }) ({ pt with impl := X }) rfl
              exact ⟨hrel.2.1,
                by rw [(stage2_set_fields _).1, (stage2_set_fields _).1],
                hrel.1, hrel.2.2⟩
            · refine fun _ => Or.inr ?_
              rw [next_batch_start_stage2_set]
              exact Nat.not_lt.1 hlt
    · rw [nextLoopT_succ, nextLoopNT_succ]
      dsimp only
      rw [if_neg hE, if_neg hE]
      exact ⟨⟨h1, rfl, rfl, h4⟩, fun hS => hj (Or.inr hS)⟩

theorem nextTN (env : Env)
    (hne : ∀ (bs l : Nat) (part : Bool), (env.stage1 bs l part).1 ≠ ErrorCode.EMPTY)
    (fuel : Nat) (s t : DocumentStream) (h : C4Inv env s t) :
    C4Inv env (nextT env fuel s) (nextNT env fuel t) := by
  obtain ⟨⟨h1, h2, h3, h4⟩, hj⟩ := h
  by_cases hie : s.error.isError = true
  · have hiet : t.error.isError = true := by rw [← h3]; exact hie
    unfold nextT nextNT
    rw [if_pos hie, if_pos hiet]
    exact ⟨⟨h1, h2, h3, h4⟩, hj⟩
  · have hiet : ¬(t.error.isError = true) := by rw [← h3]; exact hie
    have hS : s.error = ErrorCode.SUCCESS :=
      (ErrorCode.isError_false_iff _).1 (by simpa using hie)
    unfold nextT nextNT
    rw [if_neg hie, if_neg hiet]
    apply nextLoopTN env hne fuel
    · have hrel := stage2_rel s.parser t.parser h1
      exact ⟨hrel.2.1, by rw [(stage2_set_fields s).1, (stage2_set_fields t).1]; exact h2,
        hrel.1, hrel.2.2⟩
    · intro _
      exact JobOK_stage2_set env s (hj hS)

theorem startTN (env : Env)
    (hne : ∀ (bs l : Nat) (part : Bool), (env.stage1 bs l part).1 ≠ ErrorCode.EMPTY)
    (fuel : Nat) (p tp tp2 : Parser) (e : ErrorCode) :
    C4Inv env (startT env fuel (mkStream p tp e)) (startNT env fuel (mkStream p tp2 e)) := by
  by_cases hie : e.isError = true
  · unfold startT startNT mkStream
    dsimp only
    rw [if_pos hie, if_pos hie]
    exact ⟨⟨rfl, rfl, rfl, fun hS => absurd hS ((ErrorCode.isError_iff _).1 hie)⟩,
      fun hS => absurd hS ((ErrorCode.isError_iff _).1 hie)⟩
  · have hS : e = ErrorCode.SUCCESS := (ErrorCode.isError_false_iff _).1 (by simpa using hie)
    subst hS
    unfold startT startNT mkStream
    dsimp only
    rw [if_neg hie, if_neg hie]
    by_cases hc : (env.ensure_capacity env.batch_size).isError = true
    · rw [if_pos hc, if_pos hc]
      exact ⟨⟨rfl, rfl, rfl, fun hS2 => absurd hS2 ((ErrorCode.isError_iff _).1 hc)⟩,
        fun hS2 => absurd hS2 ((ErrorCode.isError_iff _).1 hc)⟩
    · rw [if_neg hc, if_neg hc]
      have hcS : env.ensure_capacity env.batch_size = ErrorCode.SUCCESS :=
        (ErrorCode.isError_false_iff _).1 (by simpa using hc)
      rw [hcS, run_stage1_eq]
      dsimp only
      have hneE := stage1_res_ne_EMPTY env hne 0
      revert hneE
      generalize stage1_res env 0 = rr
      obtain ⟨E, X⟩ := rr
      intro hneE
      dsimp only
      by_cases hrE : E.isError = true
      · rw [if_pos hrE, if_pos hrE]
        exact ⟨⟨rfl, rfl, rfl, fun hS2 => absurd hS2 ((ErrorCode.isError_iff _).1 hrE)⟩,
          fun hS2 => absurd hS2 ((ErrorCode.isError_iff _).1 hrE)⟩
      · have hrS : E = ErrorCode.SUCCESS :=
          (ErrorCode.isError_false_iff _).1 (by simpa using hrE)
        subst hrS
        rw [if_neg hrE, if_neg hrE, if_neg hrE]
        simp only [next_batch_start_mk]
        by_cases hlt : 0 + X.structural_indexes X.n_structural_indexes < env.len
        · rw [if_pos hlt]
          apply nextTN env hne fuel
          exact ⟨⟨rfl, rfl, rfl, fun _ => rfl⟩, fun _ => Or.inl rfl⟩
        · rw [if_neg hlt]
          apply nextTN env hne fuel
          exact ⟨⟨rfl, rfl, rfl, fun _ => rfl⟩, fun _ => Or.inr (Nat.not_lt.1 hlt)⟩

theorem runFor_eq (env : Env)
    (hne : ∀ (bs l : Nat) (part : Bool), (env.stage1 bs l part).1 ≠ ErrorCode.EMPTY)
    (nFuel : Nat) :
    ∀ (itFuel : Nat) (s t : DocumentStream) (f : Bool), C4Inv env s t →
      runFor (nextT env nFuel) itFuel s f = runFor (nextNT env nFuel) itFuel t f := by
  intro itFuel
  induction itFuel with
  | zero => intro s t f _; rfl
  | succ n ih =>
    intro s t f h
    obtain ⟨⟨h1, h2, h3, h4⟩, hj⟩ := h
    rw [runFor, runFor]
    by_cases hf : iterNe f endFinished = true
    · rw [if_pos hf, if_pos hf]
      have hobs : (iterDeref s f).1 = (iterDeref t f).1 ∧
          (iterDeref s f).2 = (iterDeref t f).2 := by
        unfold iterDeref
        by_cases hie : s.error.isError = true
        · have hiet : t.error.isError = true := by rw [← h3]; exact hie
          rw [if_pos hie, if_pos hiet]
          exact ⟨by rw [h3], rfl⟩
        · have hiet : ¬(t.error.isError = true) := by rw [← h3]; exact hie
          have hS : s.error = ErrorCode.SUCCESS :=
            (ErrorCode.isError_false_iff _).1 (by simpa using hie)
          rw [if_neg hie, if_neg hiet]
          exact ⟨by rw [h4 hS], rfl⟩
      have hstep := nextTN env hne nFuel s t ⟨⟨h1, h2, h3, h4⟩, hj⟩
      have herr' : (nextT env nFuel s).error = (nextNT env nFuel t).error := hstep.1.2.2.1
      unfold iterIncW
      dsimp only
      rw [hobs.1, hobs.2, herr']
      congr 1
      exact ih _ _ _ hstep
    · rw [if_neg hf, if_neg hf]

/-- Claim C4: for the same input and batch size, with deterministic phase-1 /
phase-2 oracles and phase 1 never reporting `EMPTY` for any window it is given
(the claim's premise — a batch size larger than the largest document makes
every batch hold at least one document), the sequence of documents and errors
yielded by iterating the stream is identical in the pipelined (threaded,
double-buffered) build and the synchronous single-parser build. -/
theorem C4_pipelined_sync_equivalence (env : Env) (nFuel itFuel : Nat)
    (p tp tp2 : Parser) (e : ErrorCode)
    (hne : ∀ (bs l : Nat) (part : Bool), (env.stage1 bs l part).1 ≠ ErrorCode.EMPTY) :
    streamRunT env nFuel itFuel p tp e = streamRunNT env nFuel itFuel p tp2 e := by
  unfold streamRunT streamRunNT beginStream
  dsimp only
  have hstart := startTN env hne nFuel p tp tp2 e
  have herr : (startT env nFuel (mkStream p tp e)).error =
      (startNT env nFuel (mkStream p tp2 e)).error := hstart.1.2.2.1
  rw [herr]
  exact runFor_eq env hne nFuel itFuel _ _ _ hstart

theorem C4_pipelined_sync_equivalence_witness :
    streamRunT exEnv 3 4 exParser exParser ErrorCode.SUCCESS =
    streamRunNT exEnv 3 4 exParser exParser ErrorCode.SUCCESS :=
  C4_pipelined_sync_equivalence exEnv 3 4 exParser exParser exParser ErrorCode.SUCCESS
    (fun _ _ _ hx => nomatch hx)

/- ### Claim C10 -/

/-- Claim C10: on a terminally failed stream, `operator++` never sets the
iterator's finished flag (only the `EMPTY` sentinel does that) and leaves the
stream untouched, while `operator*` does set it; hence a live iterator stays
unequal to `end()` until the error has been dereferenced once, and equal
afterwards. -/
theorem C10_terminal_error_iterator (env : Env) (fuel : Nat) (s : DocumentStream)
    (f : Bool) (h1 : s.error ≠ ErrorCode.SUCCESS) (h2 : s.error ≠ ErrorCode.EMPTY) :
    (iterIncW (nextT env fuel) s f).2 = f ∧
    (iterIncW (nextT env fuel) s f).1 = s ∧
    (iterDeref s f).2 = true ∧
    (f = false → iterNe f endFinished = true) ∧
    iterNe (iterDeref s f).2 endFinished = false := by
  have hE : s.error.isError = true := (ErrorCode.isError_iff s.error).2 h1
  have hfix : nextT env fuel s = s := nextT_noop env fuel s hE
  refine ⟨?_, ?_, ?_, ?_, ?_⟩
  · simp [iterIncW, hfix, h2]
  · simp [iterIncW, hfix]
  · simp [iterDeref, hE]
  · intro hf; simp [iterNe, endFinished, hf]
  · simp [iterDeref, hE, iterNe, endFinished]

theorem C10_terminal_error_iterator_witness :
    (iterIncW (nextT exEnv 3) exErr false).2 = false ∧
    (iterIncW (nextT exEnv 3) exErr false).1 = exErr ∧
    (iterDeref exErr false).2 = true ∧
    (false = false → iterNe false endFinished = true) ∧
    iterNe (iterDeref exErr false).2 endFinished = false :=
  C10_terminal_error_iterator exEnv 3 exErr false (by decide) (by decide)

end Simdjson
